import Mathlib

/-!
Shallow embedding of `src/Universe.py`: a procedural universe generator
(galaxies, stars, planets, black holes, nebulae, asteroids, comets) followed
by a length-prefixed binary writer with sparse zero padding.

Python floats are modelled as rationals, the global `random` module as a
deterministic oracle state (`RState`) supplying the successive outputs of
`random.random()` and of the raw integer draws, and Python exceptions as an
`Except` layer (`PyErr`).
-/

namespace UniverseSim

/-- Exceptions the Python code can raise while generating. -/
inductive PyErr where
  | valueError
  | zeroDivisionError
  | indexError
  deriving DecidableEq

/-- State of the global `random` module, modelled as an oracle: `f k` is the
`k`-th output of `random.random()` (a value in `[0,1)`, modelled as `ℚ`), and
`g k` is the `k`-th raw integer draw backing `randint`/`choice`; `i` and `j`
count how many draws of each kind have been consumed. -/
structure RState where
  f : ℕ → ℚ
  g : ℕ → ℕ
  i : ℕ
  j : ℕ

/-- Computations that consume randomness and may raise a Python exception. -/
def Gen (α : Type) : Type := RState → Except PyErr (α × RState)

/-- Return a value without touching the random state. -/
def Gen.pure (a : α) : Gen α := fun s => .ok (a, s)

/-- Sequence two random computations; an exception aborts the rest. -/
def Gen.bind (m : Gen α) (k : α → Gen β) : Gen β := fun s =>
  match m s with
  | .ok (a, s') => k a s'
  | .error e => .error e

instance : Monad Gen where
  pure := Gen.pure
  bind := Gen.bind

/-- Raise a Python exception. -/
def Gen.throw (e : PyErr) : Gen α := fun _ => .error e

/-- Model of `random.random()`: the next float-oracle value. -/
def pyRandom : Gen ℚ := fun s => .ok (s.f s.i, { s with i := s.i + 1 })

/-- Model of `random.randint(a, b)`: uniform on `{a, …, b}`; raises
`ValueError` when `a > b` (empty range), as Python does. The next raw integer
draw is reduced mod the range size, so every value of the range is reachable
by a suitable oracle. -/
def randint (a b : ℤ) : Gen ℤ := fun s =>
  if a ≤ b then .ok (a + (s.g s.j : ℤ) % (b - a + 1), { s with j := s.j + 1 })
  else .error .valueError

/-- Model of `random.choice(l)`: raises `IndexError` on an empty sequence. -/
def choice (l : List α) : Gen α := fun s =>
  if h : l.length = 0 then .error .indexError
  else .ok (l.get ⟨s.g s.j % l.length, Nat.mod_lt _ (Nat.pos_of_ne_zero h)⟩,
            { s with j := s.j + 1 })

/-- Model of `random.uniform(a, b)`: `a + (b - a) * random()`. -/
def uniform (a b : ℚ) : Gen ℚ := do
  let u ← pyRandom
  Gen.pure (a + (b - a) * u)

/-- Run the bodies in order over an index list, collecting the results: the
model of the Python `for … in range(n): xs.append(…)` loops and of list
comprehensions. -/
def genSeq (body : ι → Gen α) : List ι → Gen (List α)
  | [] => Gen.pure []
  | x :: xs => do
      let a ← body x
      let rest ← genSeq body xs
      Gen.pure (a :: rest)

/-! Global configuration constants of `Universe.py`. -/

def MIN_MASS : ℚ := 10 ^ 20
def MAX_MASS : ℚ := 10 ^ 40
def MIN_TEMP : ℚ := 2
def MAX_TEMP : ℚ := 10 ^ 7

def MINERAL_TYPES : List String :=
  ["Iron", "Silicon", "Magnesium", "Oxygen",
   "Carbon", "Nickel", "Sulfur", "Aluminum"]

def LIFE_PROBABILITY : ℚ := 5 / 10000

/-- Count configuration of the generator; the source reads these from module
globals (`NUM_GALAXIES`, `STAR_COUNT_RANGE`, …), gathered here in a record so
the claims can quantify over configurations. -/
structure Config where
  NUM_GALAXIES : ℤ
  STAR_COUNT_RANGE : ℤ × ℤ
  PLANET_COUNT_RANGE : ℤ × ℤ
  BH_COUNT_RANGE : ℤ × ℤ
  NEBULA_COUNT_RANGE : ℤ × ℤ
  ASTEROID_COUNT_RANGE : ℤ × ℤ
  COMET_COUNT_RANGE : ℤ × ℤ
  deriving DecidableEq

/-- Configuration holding the module-level constants of `Universe.py`. -/
def defaultConfig : Config :=
  { NUM_GALAXIES := 200
    STAR_COUNT_RANGE := (10, 200)
    PLANET_COUNT_RANGE := (0, 15)
    BH_COUNT_RANGE := (0, 3)
    NEBULA_COUNT_RANGE := (0, 5)
    ASTEROID_COUNT_RANGE := (50, 200)
    COMET_COUNT_RANGE := (10, 50) }

/-! Utility random functions of `Universe.py`. -/

/-- Model of `random_mass`. -/
def random_mass : Gen ℚ := uniform MIN_MASS MAX_MASS

/-- Model of `random_temperature`. -/
def random_temperature : Gen ℚ := uniform MIN_TEMP MAX_TEMP

/-- Model of `random_minerals`: draw one weight per mineral, then normalise by
the sum. Python's dict comprehension keeps insertion order, modelled as an
association list. Division by a zero total raises `ZeroDivisionError`. -/
def random_minerals : Gen (List (String × ℚ)) := do
  let weights ← genSeq (fun _ => pyRandom) MINERAL_TYPES
  let total := weights.sum
  if total = 0 then Gen.throw .zeroDivisionError
  else Gen.pure ((MINERAL_TYPES.zip weights).map (fun p => (p.1, p.2 / total)))

/-- Model of `random_bool_chance`: `random.random() < p`. -/
def random_bool_chance (p : ℚ) : Gen Bool := do
  let u ← pyRandom
  Gen.pure (decide (u < p))

/-! Data classes of `Universe.py`. -/

structure Planet where
  code : String
  mass : ℚ
  temperature : ℚ
  has_life : Bool
  minerals : List (String × ℚ)
  deriving DecidableEq

structure Star where
  code : String
  mass : ℚ
  temperature : ℚ
  spectral_type : String
  planets : List Planet
  deriving DecidableEq

structure BlackHole where
  code : String
  mass : ℚ
  spin : ℚ
  deriving DecidableEq

structure Nebula where
  code : String
  mass : ℚ
  temperature : ℚ
  composition : List (String × ℚ)
  deriving DecidableEq

structure Asteroid where
  code : String
  mass : ℚ
  composition : List (String × ℚ)
  deriving DecidableEq

structure Comet where
  code : String
  mass : ℚ
  tail_length_km : ℚ
  deriving DecidableEq

structure Galaxy where
  code : String
  stars : List Star
  black_holes : List BlackHole
  nebulae : List Nebula
  asteroids : List Asteroid
  comets : List Comet
  deriving DecidableEq

structure Universe where
  galaxies : List Galaxy
  deriving DecidableEq

/-! Reference codes, as built by the f-strings of the generation functions. -/

/-- Code of a galaxy: `G{gal_idx}`. -/
def galaxyCode (g : ℕ) : String := "G" ++ Nat.repr g

/-- Code of a star: `G{gal_idx}-S{star_idx}`. -/
def starCode (g s : ℕ) : String := "G" ++ Nat.repr g ++ "-S" ++ Nat.repr s

/-- Code of a planet: `G{gal_idx}-S{star_idx}-P{planet_idx}`. -/
def planetCode (g s p : ℕ) : String :=
  "G" ++ Nat.repr g ++ "-S" ++ Nat.repr s ++ "-P" ++ Nat.repr p

/-- Code of a black hole: `G{gal_idx}-BH{bh_idx}`. -/
def bhCode (g b : ℕ) : String := "G" ++ Nat.repr g ++ "-BH" ++ Nat.repr b

/-- Code of a nebula: `G{gal_idx}-N{nebula_idx}`. -/
def nebulaCode (g n : ℕ) : String := "G" ++ Nat.repr g ++ "-N" ++ Nat.repr n

/-- Code of an asteroid: `G{gal_idx}-A{asteroid_idx}`. -/
def asteroidCode (g a : ℕ) : String := "G" ++ Nat.repr g ++ "-A" ++ Nat.repr a

/-- Code of a comet: `G{gal_idx}-C{comet_idx}`. -/
def cometCode (g c : ℕ) : String := "G" ++ Nat.repr g ++ "-C" ++ Nat.repr c

/-! Generation functions of `Universe.py`. -/

/-- Model of `generate_planets`. -/
def generate_planets (cfg : Config) (gal_idx star_idx : ℕ) : Gen (List Planet) := do
  let num_planets ← randint cfg.PLANET_COUNT_RANGE.1 cfg.PLANET_COUNT_RANGE.2
  genSeq (fun pidx => do
      let code := planetCode gal_idx star_idx pidx
      let mass ← random_mass
      let temp ← random_temperature
      let has_life ← random_bool_chance LIFE_PROBABILITY
      let minerals ← random_minerals
      Gen.pure (Planet.mk code mass temp has_life minerals))
    (List.range num_planets.toNat)

/-- Spectral class letters used by `generate_stars`. -/
def spectral_types : List String := ["O", "B", "A", "F", "G", "K", "M"]

/-- Model of `generate_stars`. -/
def generate_stars (cfg : Config) (gal_idx : ℕ) : Gen (List Star) := do
  let num_stars ← randint cfg.STAR_COUNT_RANGE.1 cfg.STAR_COUNT_RANGE.2
  genSeq (fun sidx => do
      let code := starCode gal_idx sidx
      let mass ← random_mass
      let temp ← random_temperature
      let sp ← choice spectral_types
      let planets ← generate_planets cfg gal_idx sidx
      Gen.pure (Star.mk code mass temp sp planets))
    (List.range num_stars.toNat)

/-- Model of `generate_black_holes`; black holes are heavier by `1e3`. -/
def generate_black_holes (cfg : Config) (gal_idx : ℕ) : Gen (List BlackHole) := do
  let num_bh ← randint cfg.BH_COUNT_RANGE.1 cfg.BH_COUNT_RANGE.2
  genSeq (fun bidx => do
      let code := bhCode gal_idx bidx
      let mass ← random_mass
      let spin ← pyRandom
      Gen.pure (BlackHole.mk code (mass * 10 ^ 3) spin))
    (List.range num_bh.toNat)

/-- Model of `generate_nebulae`. -/
def generate_nebulae (cfg : Config) (gal_idx : ℕ) : Gen (List Nebula) := do
  let num_neb ← randint cfg.NEBULA_COUNT_RANGE.1 cfg.NEBULA_COUNT_RANGE.2
  genSeq (fun nidx => do
      let code := nebulaCode gal_idx nidx
      let mass ← random_mass
      let temp ← random_temperature
      let comp ← random_minerals
      Gen.pure (Nebula.mk code (mass / 10) (temp / 10) comp))
    (List.range num_neb.toNat)

/-- Model of `generate_asteroids`. -/
def generate_asteroids (cfg : Config) (gal_idx : ℕ) : Gen (List Asteroid) := do
  let num_ast ← randint cfg.ASTEROID_COUNT_RANGE.1 cfg.ASTEROID_COUNT_RANGE.2
  genSeq (fun aidx => do
      let code := asteroidCode gal_idx aidx
      let mass ← random_mass
      let comp ← random_minerals
      Gen.pure (Asteroid.mk code (mass / 10 ^ 3) comp))
    (List.range num_ast.toNat)

/-- Model of `generate_comets`. -/
def generate_comets (cfg : Config) (gal_idx : ℕ) : Gen (List Comet) := do
  let num_com ← randint cfg.COMET_COUNT_RANGE.1 cfg.COMET_COUNT_RANGE.2
  genSeq (fun cidx => do
      let code := cometCode gal_idx cidx
      let mass ← random_mass
      let tail ← uniform (10 ^ 3) (10 ^ 5)
      Gen.pure (Comet.mk code (mass / 10 ^ 6) tail))
    (List.range num_com.toNat)

/-- Model of `generate_galaxies`. -/
def generate_galaxies (cfg : Config) : Gen (List Galaxy) :=
  genSeq (fun gal_idx => do
      let code := galaxyCode gal_idx
      let stars ← generate_stars cfg gal_idx
      let black_holes ← generate_black_holes cfg gal_idx
      let nebulae ← generate_nebulae cfg gal_idx
      let asteroids ← generate_asteroids cfg gal_idx
      let comets ← generate_comets cfg gal_idx
      Gen.pure (Galaxy.mk code stars black_holes nebulae asteroids comets))
    (List.range cfg.NUM_GALAXIES.toNat)

/-- Generation part of `main`: build the galaxy list and wrap it in a
`Universe`. -/
def genUniverse (cfg : Config) : Gen Universe := do
  let galaxies ← generate_galaxies cfg
  Gen.pure (Universe.mk galaxies)

/-! File writing logic of `Universe.py`. A binary file opened with `'wb'` is
a byte list plus a cursor; writing past the end fills the gap with zero bytes
(sparse-file semantics), writing inside the data overwrites in place. -/

/-- Model of a Python binary file object: contents and cursor position. -/
structure PyFile where
  data : List ℕ
  pos : ℕ
  deriving DecidableEq

/-- Model of `file.write(bs)`: zero-fill up to the cursor if it sits past the
end of the data, then overwrite/extend at the cursor and advance it. -/
def PyFile.write (fl : PyFile) (bs : List ℕ) : PyFile :=
  let d := if fl.data.length < fl.pos
    then fl.data ++ List.replicate (fl.pos - fl.data.length) 0
    else fl.data
  { data := d.take fl.pos ++ bs ++ d.drop (fl.pos + bs.length)
    pos := fl.pos + bs.length }

/-- Model of `file.seek(k)`. -/
def PyFile.seek (fl : PyFile) (k : ℕ) : PyFile := { fl with pos := k }

/-- File produced by `open(filename, 'wb')`: empty, cursor at 0. -/
def openWb : PyFile := { data := [], pos := 0 }

/-- Model of `struct.pack('<Q', n)`: 8 bytes, little endian. -/
def pack_u64 (n : ℕ) : List ℕ :=
  (List.range 8).map (fun k => n / 256 ^ k % 256)

/-- Model of `UniverseWriter.write_universe`, abstracted over the pickle
blob: writes the 8-byte little-endian length of the payload, then the
payload itself. (`pickle.dumps` of the `to_dict` value is a library call;
its output bytes are taken as the `payload` parameter.) -/
def write_universe (payload : List ℕ) (fl : PyFile) : PyFile :=
  (fl.write (pack_u64 payload.length)).write payload

/-- Model of `UniverseWriter.pad_file`: seek to `target_size - 1` and write a
single zero byte. -/
def pad_file (target_size : ℕ) (fl : PyFile) : PyFile :=
  (fl.seek (target_size - 1)).write [0]

/-- Model of the `with UniverseWriter(...) as writer: body` statement:
`__enter__` opens the file, the body runs (possibly raising, in which case it
reports the exception together with the file state it left behind), and
`__exit__` calls `pad_file` unconditionally before closing. Returns the
propagated outcome and the final on-disk file. -/
def withWriter (target_size : ℕ)
    (body : PyFile → Except (PyErr × PyFile) PyFile) :
    Except PyErr Unit × PyFile :=
  match body openWb with
  | .ok fl => (.ok (), pad_file target_size fl)
  | .error (e, fl) => (.error e, pad_file target_size fl)

/-! Serialization codec. `to_dict` methods are from the source; the program
itself has no reader, so the inverse codec is modelled from the spec. -/

/-- Python values that the `to_dict` methods build: strings, floats, bools,
lists and (insertion-ordered) dicts. -/
inductive Val where
  | str : String → Val
  | num : ℚ → Val
  | bool : Bool → Val
  | list : List Val → Val
  | dict : List (String × Val) → Val

/-- Encode a mineral/composition mapping as a dict of floats. -/
def mineralsVal (ms : List (String × ℚ)) : Val :=
  .dict (ms.map (fun p => (p.1, .num p.2)))

/-- Model of `Planet.to_dict`. -/
def Planet.to_dict (p : Planet) : Val :=
  .dict [("code", .str p.code), ("mass", .num p.mass),
         ("temperature", .num p.temperature), ("has_life", .bool p.has_life),
         ("minerals", mineralsVal p.minerals)]

/-- Model of `Star.to_dict`. -/
def Star.to_dict (st : Star) : Val :=
  .dict [("code", .str st.code), ("mass", .num st.mass),
         ("temperature", .num st.temperature),
         ("spectral_type", .str st.spectral_type),
         ("planets", .list (st.planets.map Planet.to_dict))]

/-- Model of `BlackHole.to_dict`. -/
def BlackHole.to_dict (bh : BlackHole) : Val :=
  .dict [("code", .str bh.code), ("mass", .num bh.mass),
         ("spin", .num bh.spin)]

/-- Model of `Nebula.to_dict`. -/
def Nebula.to_dict (nb : Nebula) : Val :=
  .dict [("code", .str nb.code), ("mass", .num nb.mass),
         ("temperature", .num nb.temperature),
         ("composition", mineralsVal nb.composition)]

/-- Model of `Asteroid.to_dict`. -/
def Asteroid.to_dict (a : Asteroid) : Val :=
  .dict [("code", .str a.code), ("mass", .num a.mass),
         ("composition", mineralsVal a.composition)]

/-- Model of `Comet.to_dict`. -/
def Comet.to_dict (c : Comet) : Val :=
  .dict [("code", .str c.code), ("mass", .num c.mass),
         ("tail_length_km", .num c.tail_length_km)]

/-- Model of `Galaxy.to_dict`. -/
def Galaxy.to_dict (gx : Galaxy) : Val :=
  .dict [("code", .str gx.code),
         ("stars", .list (gx.stars.map Star.to_dict)),
         ("black_holes", .list (gx.black_holes.map BlackHole.to_dict)),
         ("nebulae", .list (gx.nebulae.map Nebula.to_dict)),
         ("asteroids", .list (gx.asteroids.map Asteroid.to_dict)),
         ("comets", .list (gx.comets.map Comet.to_dict))]

/-- Model of `Universe.to_dict`. -/
def Universe.to_dict (u : Universe) : Val :=
  .dict [("galaxies", .list (u.galaxies.map Galaxy.to_dict))]

/-- Decode a list of values elementwise, failing if any element fails. -/
def decodeList (dec : Val → Option α) : List Val → Option (List α)
  | [] => some []
  | v :: vs => do
      let a ← dec v
      let rest ← decodeList dec vs
      some (a :: rest)

/-- Modelled from the spec: the repository has no decoder; the spec's §6
schema prescribes the inverse of `mineralsVal` on composition dicts. -/
def decodeMinerals : Val → Option (List (String × ℚ))
  | .dict ps => go ps
  | _ => none
where
  go : List (String × Val) → Option (List (String × ℚ))
    | [] => some []
    | (k, .num x) :: rest => (go rest).map (fun r => (k, x) :: r)
    | _ => none

/-- Modelled from the spec: inverse codec for the `Planet` entry of the §6
schema (the repository ships no reader). -/
def Planet.from_dict : Val → Option Planet
  | .dict [("code", .str c), ("mass", .num m), ("temperature", .num t),
           ("has_life", .bool hl), ("minerals", mv)] => do
      let ms ← decodeMinerals mv
      some (Planet.mk c m t hl ms)
  | _ => none

/-- Modelled from the spec: inverse codec for the `Star` entry of the §6
schema. -/
def Star.from_dict : Val → Option Star
  | .dict [("code", .str c), ("mass", .num m), ("temperature", .num t),
           ("spectral_type", .str sp), ("planets", .list pv)] => do
      let ps ← decodeList Planet.from_dict pv
      some (Star.mk c m t sp ps)
  | _ => none

/-- Modelled from the spec: inverse codec for the `BlackHole` entry of the §6
schema. -/
def BlackHole.from_dict : Val → Option BlackHole
  | .dict [("code", .str c), ("mass", .num m), ("spin", .num sp)] =>
      some (BlackHole.mk c m sp)
  | _ => none

/-- Modelled from the spec: inverse codec for the `Nebula` entry of the §6
schema. -/
def Nebula.from_dict : Val → Option Nebula
  | .dict [("code", .str c), ("mass", .num m), ("temperature", .num t),
           ("composition", cv)] => do
      let comp ← decodeMinerals cv
      some (Nebula.mk c m t comp)
  | _ => none

/-- Modelled from the spec: inverse codec for the `Asteroid` entry of the §6
schema. -/
def Asteroid.from_dict : Val → Option Asteroid
  | .dict [("code", .str c), ("mass", .num m), ("composition", cv)] => do
      let comp ← decodeMinerals cv
      some (Asteroid.mk c m comp)
  | _ => none

/-- Modelled from the spec: inverse codec for the `Comet` entry of the §6
schema. -/
def Comet.from_dict : Val → Option Comet
  | .dict [("code", .str c), ("mass", .num m), ("tail_length_km", .num tl)] =>
      some (Comet.mk c m tl)
  | _ => none

/-- Modelled from the spec: inverse codec for the `Galaxy` entry of the §6
schema. -/
def Galaxy.from_dict : Val → Option Galaxy
  | .dict [("code", .str c), ("stars", .list sv), ("black_holes", .list bv),
           ("nebulae", .list nv), ("asteroids", .list av),
           ("comets", .list cv)] => do
      let stars ← decodeList Star.from_dict sv
      let bhs ← decodeList BlackHole.from_dict bv
      let nebs ← decodeList Nebula.from_dict nv
      let asts ← decodeList Asteroid.from_dict av
      let cms ← decodeList Comet.from_dict cv
      some (Galaxy.mk c stars bhs nebs asts cms)
  | _ => none

/-- Modelled from the spec: inverse codec for the top-level `Universe` entry
of the §6 schema. -/
def Universe.from_dict : Val → Option Universe
  | .dict [("galaxies", .list gv)] => do
      let gs ← decodeList Galaxy.from_dict gv
      some (Universe.mk gs)
  | _ => none

/-! Concrete inputs used by witnesses and counterexamples. -/

/-- Combined code list of all members of one galaxy. -/
def galaxyMemberCodes (gal : Galaxy) : List String :=
  gal.stars.map Star.code ++ gal.black_holes.map BlackHole.code
    ++ gal.nebulae.map Nebula.code ++ gal.asteroids.map Asteroid.code
    ++ gal.comets.map Comet.code

/-- Boundary configuration: one galaxy, all count ranges `(0, 0)`. -/
def cfg00 : Config := ⟨1, (0, 0), (0, 0), (0, 0), (0, 0), (0, 0), (0, 0)⟩

/-- Oracle whose float draws are all `1/2` and integer draws are all `0`. -/
def st0 : RState := ⟨fun _ => 1/2, fun _ => 0, 0, 0⟩

/-- Oracle whose draws are all zero. -/
def stZero : RState := ⟨fun _ => 0, fun _ => 0, 0, 0⟩

/-- All-zero oracle with given draw counters. -/
def stZ (i j : ℕ) : RState := ⟨fun _ => 0, fun _ => 0, i, j⟩

/-- Writer body that raises immediately, leaving the file as it found it. -/
def bodyW : PyFile → Except (PyErr × PyFile) PyFile :=
  fun fl => .error (.valueError, fl)

/-- Universe produced from `cfg00`: one galaxy `G0` with empty collections. -/
def u00 : Universe := ⟨[⟨"G0", [], [], [], [], []⟩]⟩

/-- Mineral mapping produced by `random_minerals` when all eight draws are
equal: every mineral gets weight `1/8`. -/
def minerals0 : List (String × ℚ) :=
  [("Iron", 1/8), ("Silicon", 1/8), ("Magnesium", 1/8), ("Oxygen", 1/8),
   ("Carbon", 1/8), ("Nickel", 1/8), ("Sulfur", 1/8), ("Aluminum", 1/8)]

/-- Configuration with a negative star-count range (and one galaxy). -/
def cfgNeg : Config := ⟨1, (-2, -1), (0, 0), (0, 0), (0, 0), (0, 0), (0, 0)⟩

/-- Configuration with a malformed star-count range (`min > max`). -/
def cfgBad : Config := ⟨1, (1, 0), (0, 0), (0, 0), (0, 0), (0, 0), (0, 0)⟩

/-- Configuration producing exactly one star with one planet per galaxy. -/
def cfgPlanet : Config := ⟨1, (1, 1), (1, 1), (0, 0), (0, 0), (0, 0), (0, 0)⟩

/-- Oracle states whose float draws are all positive (as `random.random()`
outputs are whenever they are nonzero). -/
def PosF (s : RState) : Prop := ∀ k, 0 < s.f k

/-- Well-formedness of a configuration in the sense of claim C7: galaxy
count non-negative and every count range non-negative with `min ≤ max`. -/
def WfCfg (cfg : Config) : Prop :=
  0 ≤ cfg.NUM_GALAXIES ∧
  (0 ≤ cfg.STAR_COUNT_RANGE.1 ∧ cfg.STAR_COUNT_RANGE.1 ≤ cfg.STAR_COUNT_RANGE.2) ∧
  (0 ≤ cfg.PLANET_COUNT_RANGE.1 ∧ cfg.PLANET_COUNT_RANGE.1 ≤ cfg.PLANET_COUNT_RANGE.2) ∧
  (0 ≤ cfg.BH_COUNT_RANGE.1 ∧ cfg.BH_COUNT_RANGE.1 ≤ cfg.BH_COUNT_RANGE.2) ∧
  (0 ≤ cfg.NEBULA_COUNT_RANGE.1 ∧ cfg.NEBULA_COUNT_RANGE.1 ≤ cfg.NEBULA_COUNT_RANGE.2) ∧
  (0 ≤ cfg.ASTEROID_COUNT_RANGE.1 ∧ cfg.ASTEROID_COUNT_RANGE.1 ≤ cfg.ASTEROID_COUNT_RANGE.2) ∧
  (0 ≤ cfg.COMET_COUNT_RANGE.1 ∧ cfg.COMET_COUNT_RANGE.1 ≤ cfg.COMET_COUNT_RANGE.2)

/-- Computation that always succeeds from any state satisfying the invariant
`P`, ending in a state that still satisfies it. -/
def StepOk (P : RState → Prop) (m : Gen α) : Prop :=
  ∀ s, P s → ∃ a s', m s = .ok (a, s') ∧ P s'

/-- Numeric value of a decimal digit character. -/
def digitVal (c : Char) : ℕ := c.toNat - 48

/-- Value of a most-significant-digit-first digit string. -/
def digitsVal : List Char → ℕ
  | [] => 0
  | c :: cs => digitVal c * 10 ^ cs.length + digitsVal cs

/-- Positional code property of a generated star: its own code and its
planets' codes are the positional functions of the indices. -/
def StarShape (g sidx : ℕ) (st : Star) : Prop :=
  st.code = starCode g sidx ∧
  st.planets.map Planet.code
    = (List.range st.planets.length).map (planetCode g sidx)

/-- Positional code property of a generated galaxy: its own code, the codes
of all five member collections, and recursively the planets of each star. -/
def GalaxyShape (g : ℕ) (gal : Galaxy) : Prop :=
  gal.code = galaxyCode g ∧
  gal.stars.map Star.code = (List.range gal.stars.length).map (starCode g) ∧
  gal.black_holes.map BlackHole.code
    = (List.range gal.black_holes.length).map (bhCode g) ∧
  gal.nebulae.map Nebula.code
    = (List.range gal.nebulae.length).map (nebulaCode g) ∧
  gal.asteroids.map Asteroid.code
    = (List.range gal.asteroids.length).map (asteroidCode g) ∧
  gal.comets.map Comet.code
    = (List.range gal.comets.length).map (cometCode g) ∧
  ∀ sidx (hs : sidx < gal.stars.length), StarShape g sidx (gal.stars.get ⟨sidx, hs⟩)

/-! Basic lemmas about the `Gen` monad and `genSeq`. -/

theorem bind_eq (m : Gen α) (k : α → Gen β) : m >>= k = Gen.bind m k := rfl

theorem pure_eq (a : α) : (Pure.pure a : Gen α) = Gen.pure a := rfl

theorem Gen.pure_ok {a b : α} {s s' : RState} :
    Gen.pure a s = .ok (b, s') ↔ b = a ∧ s' = s := by
  unfold Gen.pure
  constructor
  · intro h
    injection h with h'
    rw [Prod.mk.injEq] at h'
    exact ⟨h'.1.symm, h'.2.symm⟩
  · rintro ⟨rfl, rfl⟩; rfl

theorem Gen.bind_ok {m : Gen α} {k : α → Gen β} {s s'' : RState} {b : β} :
    Gen.bind m k s = .ok (b, s'') ↔
      ∃ a s', m s = .ok (a, s') ∧ k a s' = .ok (b, s'') := by
  unfold Gen.bind
  cases h : m s with
  | ok p =>
      cases p with
      | mk a s' =>
          simp only [h, Except.ok.injEq, Prod.mk.injEq]
          constructor
          · intro hk; exact ⟨a, s', ⟨rfl, rfl⟩, hk⟩
          · rintro ⟨a1, s1, ⟨rfl, rfl⟩, hk⟩; exact hk
  | error e => simp [h]

theorem Gen.bind_err {m : Gen α} {k : α → Gen β} {s : RState} {e : PyErr} :
    Gen.bind m k s = .error e ↔
      m s = .error e ∨ ∃ a s', m s = .ok (a, s') ∧ k a s' = .error e := by
  unfold Gen.bind
  cases h : m s with
  | ok p =>
      cases p with
      | mk a s' =>
          simp only [h, Except.ok.injEq, Prod.mk.injEq]
          constructor
          · intro hk; exact Or.inr ⟨a, s', ⟨rfl, rfl⟩, hk⟩
          · rintro (hc | ⟨a1, s1, ⟨rfl, rfl⟩, hk⟩)
            · cases hc
            · exact hk
  | error e' => simp [h]

theorem Gen.bind_error_left {m : Gen α} {k : α → Gen β} {s : RState} {e : PyErr}
    (h : m s = .error e) : Gen.bind m k s = .error e := by
  unfold Gen.bind
  rw [h]

theorem Gen.bind_error_right {m : Gen α} {k : α → Gen β} {s s' : RState}
    {a : α} {e : PyErr} (h1 : m s = .ok (a, s')) (h2 : k a s' = .error e) :
    Gen.bind m k s = .error e := by
  unfold Gen.bind
  rw [h1]
  exact h2

/-- Elements produced by `genSeq` are pointwise related to their indices. -/
theorem genSeq_forall₂ {body : ι → Gen α} {P : ι → α → Prop}
    (hb : ∀ x s a s', body x s = .ok (a, s') → P x a) :
    ∀ {ks : List ι} {s : RState} {l : List α} {s' : RState},
      genSeq body ks s = .ok (l, s') → List.Forall₂ P ks l := by
  intro ks
  induction ks with
  | nil =>
      intro s l s' h
      rw [genSeq, Gen.pure_ok] at h
      rw [h.1]
      exact List.Forall₂.nil
  | cons x xs ih =>
      intro s l s' h
      simp only [genSeq, bind_eq, Gen.bind_ok, Gen.pure_ok] at h
      obtain ⟨a, s₁, ha, rest, s₂, hrest, rfl, rfl⟩ := h
      exact List.Forall₂.cons (hb x s a s₁ ha) (ih hrest)

/-- Mapped images of two pointwise-equal lists agree. -/
theorem forall₂_map_eq {cf : ι → γ} {fv : α → γ} :
    ∀ {ks : List ι} {l : List α},
      List.Forall₂ (fun x a => fv a = cf x) ks l → l.map fv = ks.map cf := by
  intro ks l h
  induction h with
  | nil => rfl
  | cons hxa _ ih => simp [hxa, ih]

/-- Codes (or any projection) of `genSeq` results are the corresponding
function of the index list. -/
theorem genSeq_map {body : ι → Gen α} {cf : ι → γ} {fv : α → γ}
    (hb : ∀ x s a s', body x s = .ok (a, s') → fv a = cf x)
    {ks : List ι} {s : RState} {l : List α} {s' : RState}
    (h : genSeq body ks s = .ok (l, s')) : l.map fv = ks.map cf :=
  forall₂_map_eq (genSeq_forall₂ (P := fun x a => fv a = cf x) hb h)

/-- Length of a `genSeq` result. -/
theorem genSeq_length {body : ι → Gen α}
    {ks : List ι} {s : RState} {l : List α} {s' : RState}
    (h : genSeq body ks s = .ok (l, s')) : l.length = ks.length := by
  have h2 := genSeq_forall₂ (P := fun _ _ => True) (fun _ _ _ _ _ => trivial) h
  exact (List.Forall₂.length_eq h2).symm

theorem StepOk.pure {P : RState → Prop} (a : α) : StepOk P (Gen.pure a) :=
  fun s hs => ⟨a, s, rfl, hs⟩

theorem StepOk.bind {P : RState → Prop} {m : Gen α} {k : α → Gen β}
    (hm : StepOk P m) (hk : ∀ a, StepOk P (k a)) : StepOk P (Gen.bind m k) := by
  intro s hs
  obtain ⟨a, s', hok, hs'⟩ := hm s hs
  obtain ⟨b, s'', hok', hs''⟩ := hk a s' hs'
  exact ⟨b, s'', Gen.bind_ok.mpr ⟨a, s', hok, hok'⟩, hs''⟩

theorem stepOk_genSeq {P : RState → Prop} {body : ι → Gen α}
    (hb : ∀ x, StepOk P (body x)) (ks : List ι) :
    StepOk P (genSeq body ks) := by
  induction ks with
  | nil => exact StepOk.pure []
  | cons x xs ih =>
      simp only [genSeq, bind_eq]
      exact StepOk.bind (hb x) (fun a => StepOk.bind ih (fun rest => StepOk.pure _))

/-! Decimal representations: `Nat.repr` is injective. -/

theorem digitVal_digitChar : ∀ d < 10, digitVal (Nat.digitChar d) = d := by decide

theorem digitsVal_toDigitsCore :
    ∀ (fuel n : ℕ) (ds : List Char), n < 10 ^ fuel →
      digitsVal (Nat.toDigitsCore 10 fuel n ds)
        = n * 10 ^ ds.length + digitsVal ds := by
  intro fuel
  induction fuel with
  | zero =>
      intro n ds h
      have hn : n = 0 := by omega
      subst hn
      simp [Nat.toDigitsCore]
  | succ fuel ih =>
      intro n ds h
      have hmod : n % 10 < 10 := Nat.mod_lt _ (by norm_num)
      by_cases h0 : n / 10 = 0
      · have hn : n % 10 = n := by omega
        have hstep : Nat.toDigitsCore 10 (fuel + 1) n ds
            = Nat.digitChar (n % 10) :: ds := by
          simp [Nat.toDigitsCore, h0]
        rw [hstep, digitsVal, digitVal_digitChar _ hmod, hn]
      · have hlt : n / 10 < 10 ^ fuel := by
          rw [Nat.div_lt_iff_lt_mul (by norm_num : 0 < 10)]
          calc n < 10 ^ (fuel + 1) := h
            _ = 10 ^ fuel * 10 := by ring
        have hstep : Nat.toDigitsCore 10 (fuel + 1) n ds
            = Nat.toDigitsCore 10 fuel (n / 10) (Nat.digitChar (n % 10) :: ds) := by
          simp [Nat.toDigitsCore, h0]
        rw [hstep, ih (n / 10) (Nat.digitChar (n % 10) :: ds) hlt]
        rw [digitsVal, digitVal_digitChar _ hmod, List.length_cons]
        have e : 10 * (n / 10) + n % 10 = n := Nat.div_add_mod n 10
        calc n / 10 * 10 ^ (ds.length + 1) + (n % 10 * 10 ^ ds.length + digitsVal ds)
            = (10 * (n / 10) + n % 10) * 10 ^ ds.length + digitsVal ds := by ring
          _ = n * 10 ^ ds.length + digitsVal ds := by rw [e]

theorem digitsVal_toDigits (n : ℕ) : digitsVal (Nat.toDigits 10 n) = n := by
  have h : n < 10 ^ (n + 1) :=
    lt_of_lt_of_le (Nat.lt_pow_self (by norm_num) n)
      (Nat.pow_le_pow_right (by norm_num) (Nat.le_succ n))
  simpa [digitsVal] using digitsVal_toDigitsCore (n + 1) n [] h

theorem repr_injective : Function.Injective Nat.repr := by
  intro m n h
  have hd : Nat.toDigits 10 m = Nat.toDigits 10 n := by
    have h2 := congrArg String.data h
    simpa [Nat.repr, List.asString] using h2
  have h3 := congrArg digitsVal hd
  simpa [digitsVal_toDigits] using h3

/-! String appending lemmas for the code functions. -/

theorem str_append_cancel_left {a b c : String} (h : a ++ b = a ++ c) : b = c := by
  have h2 := congrArg String.data h
  simp only [String.data_append] at h2
  have h3 : b.data = c.data := List.append_cancel_left h2
  cases b; cases c; exact congrArg String.mk h3

/-! Evaluation lemmas for the random primitives. -/

theorem pyRandom_eval (s : RState) :
    pyRandom s = .ok (s.f s.i, { s with i := s.i + 1 }) := rfl

theorem uniform_eval (a b : ℚ) (s : RState) :
    uniform a b s = .ok (a + (b - a) * s.f s.i, { s with i := s.i + 1 }) := rfl

theorem random_mass_eval (s : RState) :
    random_mass s
      = .ok (MIN_MASS + (MAX_MASS - MIN_MASS) * s.f s.i, { s with i := s.i + 1 }) := rfl

theorem random_temperature_eval (s : RState) :
    random_temperature s
      = .ok (MIN_TEMP + (MAX_TEMP - MIN_TEMP) * s.f s.i, { s with i := s.i + 1 }) := rfl

theorem random_bool_chance_eval (p : ℚ) (s : RState) :
    random_bool_chance p s = .ok (decide (s.f s.i < p), { s with i := s.i + 1 }) := rfl

theorem randint_ok {a b : ℤ} (hab : a ≤ b) (s : RState) :
    randint a b s
      = .ok (a + (s.g s.j : ℤ) % (b - a + 1), { s with j := s.j + 1 }) := by
  simp [randint, hab]

theorem randint_error {a b : ℤ} (hab : ¬ a ≤ b) (s : RState) :
    randint a b s = .error .valueError := by
  simp [randint, hab]

theorem choice_ok {l : List α} (hl : l.length ≠ 0) (s : RState) :
    ∃ x, choice l s = .ok (x, { s with j := s.j + 1 }) := by
  unfold choice
  rw [dif_neg hl]
  exact ⟨_, rfl⟩

/-- Drawing one float per element of a list yields consecutive oracle
values. -/
theorem genSeq_pyRandom (l : List ι) : ∀ s : RState,
    genSeq (fun _ => pyRandom) l s
      = .ok ((List.range l.length).map (fun k => s.f (s.i + k)),
             { s with i := s.i + l.length }) := by
  induction l with
  | nil =>
      intro s
      simp [genSeq, Gen.pure]
  | cons x xs ih =>
      intro s
      have h1 : pyRandom s = .ok (s.f s.i, { s with i := s.i + 1 }) := rfl
      simp only [genSeq, bind_eq, Gen.bind, h1, ih, Gen.pure]
      have hi : s.i + 1 + xs.length = s.i + (xs.length + 1) := by omega
      simp only [List.length_cons]
      rw [List.range_succ_eq_map, List.map_cons, List.map_map, hi]
      have h2 : (List.range xs.length).map (fun k => s.f (s.i + 1 + k))
          = (List.range xs.length).map ((fun k => s.f (s.i + k)) ∘ Nat.succ) := by
        refine List.map_congr_left ?_
        intro k _
        simp only [Function.comp]
        exact congrArg s.f (by omega)
      rw [h2]
      simp

/-- Full evaluation of `random_minerals` on an arbitrary oracle state. -/
theorem random_minerals_eval (s : RState) :
    random_minerals s =
      (if ((List.range 8).map (fun k => s.f (s.i + k))).sum = 0
       then .error .zeroDivisionError
       else .ok ((MINERAL_TYPES.zip ((List.range 8).map (fun k => s.f (s.i + k)))).map
                   (fun p => (p.1, p.2 / ((List.range 8).map (fun k => s.f (s.i + k))).sum)),
                 { s with i := s.i + 8 })) := by
  have h8 : MINERAL_TYPES.length = 8 := rfl
  simp only [random_minerals, bind_eq, Gen.bind, genSeq_pyRandom, h8]
  by_cases h0 : ((List.range 8).map (fun k => s.f (s.i + k))).sum = 0
  · simp [h0, Gen.throw]
  · simp [h0, Gen.pure]

/-- When the eight relevant float draws are all zero the normalisation in
`random_minerals` divides by zero. -/
theorem random_minerals_zero {s : RState} (hz : ∀ k < 8, s.f (s.i + k) = 0) :
    random_minerals s = .error .zeroDivisionError := by
  rw [random_minerals_eval, if_pos ?_]
  refine List.sum_eq_zero ?_
  intro x hx
  simp only [List.mem_map, List.mem_range] at hx
  obtain ⟨k, hk, rfl⟩ := hx
  exact hz k hk

/-! Injectivity and disjointness of the code functions. -/

theorem galaxyCode_injective : Function.Injective galaxyCode := by
  intro a b h
  unfold galaxyCode at h
  exact repr_injective (str_append_cancel_left h)

theorem starCode_injective (g : ℕ) : Function.Injective (starCode g) := by
  intro a b h
  unfold starCode at h
  exact repr_injective (str_append_cancel_left h)

theorem planetCode_injective (g s : ℕ) : Function.Injective (planetCode g s) := by
  intro a b h
  unfold planetCode at h
  exact repr_injective (str_append_cancel_left h)

theorem bhCode_injective (g : ℕ) : Function.Injective (bhCode g) := by
  intro a b h
  unfold bhCode at h
  exact repr_injective (str_append_cancel_left h)

theorem nebulaCode_injective (g : ℕ) : Function.Injective (nebulaCode g) := by
  intro a b h
  unfold nebulaCode at h
  exact repr_injective (str_append_cancel_left h)

theorem asteroidCode_injective (g : ℕ) : Function.Injective (asteroidCode g) := by
  intro a b h
  unfold asteroidCode at h
  exact repr_injective (str_append_cancel_left h)

theorem cometCode_injective (g : ℕ) : Function.Injective (cometCode g) := by
  intro a b h
  unfold cometCode at h
  exact repr_injective (str_append_cancel_left h)

/-- Codes of two different categories inside the same galaxy never collide:
their tag letters after the `G{g}-` part differ. -/
theorem subcode_ne (g : ℕ) {t₁ t₂ : String} {c₁ c₂ : Char} {r₁ r₂ : List Char}
    (h₁ : t₁.data = '-' :: c₁ :: r₁) (h₂ : t₂.data = '-' :: c₂ :: r₂)
    (hc : c₁ ≠ c₂) (a b : ℕ) :
    ("G" ++ Nat.repr g ++ t₁ ++ Nat.repr a)
      ≠ ("G" ++ Nat.repr g ++ t₂ ++ Nat.repr b) := by
  intro h
  have h2 := congrArg String.data h
  simp only [String.data_append, h₁, h₂, List.append_assoc, List.cons_append,
    List.singleton_append] at h2
  simp only [List.nil_append, List.cons.injEq, true_and] at h2
  have h4 := List.append_cancel_left h2
  simp only [List.cons.injEq, true_and] at h4
  exact hc h4.1

theorem star_ne_bh (g a b : ℕ) : starCode g a ≠ bhCode g b :=
  @subcode_ne g "-S" "-BH" 'S' 'B' [] ['H'] rfl rfl (by decide) a b

theorem star_ne_nebula (g a b : ℕ) : starCode g a ≠ nebulaCode g b :=
  @subcode_ne g "-S" "-N" 'S' 'N' [] [] rfl rfl (by decide) a b

theorem star_ne_asteroid (g a b : ℕ) : starCode g a ≠ asteroidCode g b :=
  @subcode_ne g "-S" "-A" 'S' 'A' [] [] rfl rfl (by decide) a b

theorem star_ne_comet (g a b : ℕ) : starCode g a ≠ cometCode g b :=
  @subcode_ne g "-S" "-C" 'S' 'C' [] [] rfl rfl (by decide) a b

theorem bh_ne_nebula (g a b : ℕ) : bhCode g a ≠ nebulaCode g b :=
  @subcode_ne g "-BH" "-N" 'B' 'N' ['H'] [] rfl rfl (by decide) a b

theorem bh_ne_asteroid (g a b : ℕ) : bhCode g a ≠ asteroidCode g b :=
  @subcode_ne g "-BH" "-A" 'B' 'A' ['H'] [] rfl rfl (by decide) a b

theorem bh_ne_comet (g a b : ℕ) : bhCode g a ≠ cometCode g b :=
  @subcode_ne g "-BH" "-C" 'B' 'C' ['H'] [] rfl rfl (by decide) a b

theorem nebula_ne_asteroid (g a b : ℕ) : nebulaCode g a ≠ asteroidCode g b :=
  @subcode_ne g "-N" "-A" 'N' 'A' [] [] rfl rfl (by decide) a b

theorem nebula_ne_comet (g a b : ℕ) : nebulaCode g a ≠ cometCode g b :=
  @subcode_ne g "-N" "-C" 'N' 'C' [] [] rfl rfl (by decide) a b

theorem asteroid_ne_comet (g a b : ℕ) : asteroidCode g a ≠ cometCode g b :=
  @subcode_ne g "-A" "-C" 'A' 'C' [] [] rfl rfl (by decide) a b

/-- Positional code images over `List.range` have no duplicates. -/
theorem nodup_range_map {f : ℕ → String} (hf : Function.Injective f) (n : ℕ) :
    ((List.range n).map f).Nodup :=
  (List.nodup_range n).map hf

/-- Positional code images of two categories with distinct tags are
disjoint. -/
theorem disjoint_range_map {f h : ℕ → String} (hne : ∀ i j, f i ≠ h j) (n m : ℕ) :
    List.Disjoint ((List.range n).map f) ((List.range m).map h) := by
  intro x hx hy
  simp only [List.mem_map] at hx hy
  obtain ⟨i, _, rfl⟩ := hx
  obtain ⟨j, _, hj⟩ := hy
  exact hne i j hj.symm

/-! Code structure of generated objects. -/

/-- Pointwise consequence of a `Forall₂` against `List.range`. -/
theorem forall₂_range_get {P : ℕ → α → Prop} {n : ℕ} {l : List α}
    (h : List.Forall₂ P (List.range n) l) :
    ∀ i (hi : i < l.length), P i (l.get ⟨i, hi⟩) := by
  intro i hi
  have hlen := h.length_eq
  rw [List.length_range] at hlen
  have hn : i < (List.range n).length := by
    rw [List.length_range]; omega
  have hg := h.get hn hi
  rwa [List.get_range] at hg

theorem generate_planets_codes {cfg : Config} {g s : ℕ} {st : RState}
    {ps : List Planet} {st' : RState}
    (h : generate_planets cfg g s st = .ok (ps, st')) :
    ps.map Planet.code = (List.range ps.length).map (planetCode g s) := by
  simp only [generate_planets, bind_eq, Gen.bind_ok] at h
  obtain ⟨num, s₁, -, hseq⟩ := h
  have hlen := genSeq_length hseq
  rw [List.length_range] at hlen
  have hmap : ps.map Planet.code
      = (List.range num.toNat).map (planetCode g s) := by
    refine genSeq_map ?_ hseq
    intro x sx a sx' hx
    simp only [bind_eq, Gen.bind_ok, Gen.pure_ok] at hx
    obtain ⟨m, s1, -, t, s2, -, hl, s3, -, mi, s4, -, rfl, rfl⟩ := hx
    rfl
  rw [hmap, hlen]

theorem generate_stars_shape {cfg : Config} {g : ℕ} {st : RState}
    {stars : List Star} {st' : RState}
    (h : generate_stars cfg g st = .ok (stars, st')) :
    stars.map Star.code = (List.range stars.length).map (starCode g) ∧
    ∀ sidx (hs : sidx < stars.length), StarShape g sidx (stars.get ⟨sidx, hs⟩) := by
  simp only [generate_stars, bind_eq, Gen.bind_ok] at h
  obtain ⟨num, s₁, -, hseq⟩ := h
  have hbody : ∀ x sx a sx',
      (do
        let mass ← random_mass
        let temp ← random_temperature
        let sp ← choice spectral_types
        let planets ← generate_planets cfg g x
        Gen.pure (Star.mk (starCode g x) mass temp sp planets)) sx = .ok (a, sx') →
      StarShape g x a := by
    intro x sx a sx' hx
    simp only [bind_eq, Gen.bind_ok, Gen.pure_ok] at hx
    obtain ⟨m, s1, -, t, s2, -, sp, s3, -, pl, s4, hpl, rfl, rfl⟩ := hx
    exact ⟨rfl, generate_planets_codes hpl⟩
  have hlen := genSeq_length hseq
  rw [List.length_range] at hlen
  have hfa := genSeq_forall₂ (P := fun x a => StarShape g x a) hbody hseq
  constructor
  · have hmap : stars.map Star.code = (List.range num.toNat).map (starCode g) :=
      forall₂_map_eq (hfa.imp (fun a b hab => hab.1))
    rw [hmap, hlen]
  · exact forall₂_range_get hfa

theorem generate_black_holes_codes {cfg : Config} {g : ℕ} {st : RState}
    {bhs : List BlackHole} {st' : RState}
    (h : generate_black_holes cfg g st = .ok (bhs, st')) :
    bhs.map BlackHole.code = (List.range bhs.length).map (bhCode g) := by
  simp only [generate_black_holes, bind_eq, Gen.bind_ok] at h
  obtain ⟨num, s₁, -, hseq⟩ := h
  have hlen := genSeq_length hseq
  rw [List.length_range] at hlen
  have hmap : bhs.map BlackHole.code = (List.range num.toNat).map (bhCode g) := by
    refine genSeq_map ?_ hseq
    intro x sx a sx' hx
    simp only [bind_eq, Gen.bind_ok, Gen.pure_ok] at hx
    obtain ⟨m, s1, -, sp, s2, -, rfl, rfl⟩ := hx
    rfl
  rw [hmap, hlen]

theorem generate_nebulae_codes {cfg : Config} {g : ℕ} {st : RState}
    {nbs : List Nebula} {st' : RState}
    (h : generate_nebulae cfg g st = .ok (nbs, st')) :
    nbs.map Nebula.code = (List.range nbs.length).map (nebulaCode g) := by
  simp only [generate_nebulae, bind_eq, Gen.bind_ok] at h
  obtain ⟨num, s₁, -, hseq⟩ := h
  have hlen := genSeq_length hseq
  rw [List.length_range] at hlen
  have hmap : nbs.map Nebula.code = (List.range num.toNat).map (nebulaCode g) := by
    refine genSeq_map ?_ hseq
    intro x sx a sx' hx
    simp only [bind_eq, Gen.bind_ok, Gen.pure_ok] at hx
    obtain ⟨m, s1, -, t, s2, -, c, s3, -, rfl, rfl⟩ := hx
    rfl
  rw [hmap, hlen]

theorem generate_asteroids_codes {cfg : Config} {g : ℕ} {st : RState}
    {asts : List Asteroid} {st' : RState}
    (h : generate_asteroids cfg g st = .ok (asts, st')) :
    asts.map Asteroid.code = (List.range asts.length).map (asteroidCode g) := by
  simp only [generate_asteroids, bind_eq, Gen.bind_ok] at h
  obtain ⟨num, s₁, -, hseq⟩ := h
  have hlen := genSeq_length hseq
  rw [List.length_range] at hlen
  have hmap : asts.map Asteroid.code = (List.range num.toNat).map (asteroidCode g) := by
    refine genSeq_map ?_ hseq
    intro x sx a sx' hx
    simp only [bind_eq, Gen.bind_ok, Gen.pure_ok] at hx
    obtain ⟨m, s1, -, c, s2, -, rfl, rfl⟩ := hx
    rfl
  rw [hmap, hlen]

theorem generate_comets_codes {cfg : Config} {g : ℕ} {st : RState}
    {cms : List Comet} {st' : RState}
    (h : generate_comets cfg g st = .ok (cms, st')) :
    cms.map Comet.code = (List.range cms.length).map (cometCode g) := by
  simp only [generate_comets, bind_eq, Gen.bind_ok] at h
  obtain ⟨num, s₁, -, hseq⟩ := h
  have hlen := genSeq_length hseq
  rw [List.length_range] at hlen
  have hmap : cms.map Comet.code = (List.range num.toNat).map (cometCode g) := by
    refine genSeq_map ?_ hseq
    intro x sx a sx' hx
    simp only [bind_eq, Gen.bind_ok, Gen.pure_ok] at hx
    obtain ⟨m, s1, -, t, s2, -, rfl, rfl⟩ := hx
    rfl
  rw [hmap, hlen]

theorem generate_galaxies_shape {cfg : Config} {st : RState}
    {gals : List Galaxy} {st' : RState}
    (h : generate_galaxies cfg st = .ok (gals, st')) :
    gals.map Galaxy.code = (List.range gals.length).map galaxyCode ∧
    ∀ gi (hg : gi < gals.length), GalaxyShape gi (gals.get ⟨gi, hg⟩) := by
  rw [generate_galaxies] at h
  have hbody : ∀ x sx a sx',
      (do
        let stars ← generate_stars cfg x
        let black_holes ← generate_black_holes cfg x
        let nebulae ← generate_nebulae cfg x
        let asteroids ← generate_asteroids cfg x
        let comets ← generate_comets cfg x
        Gen.pure (Galaxy.mk (galaxyCode x) stars black_holes nebulae asteroids comets))
        sx = .ok (a, sx') →
      GalaxyShape x a := by
    intro x sx a sx' hx
    simp only [bind_eq, Gen.bind_ok, Gen.pure_ok] at hx
    obtain ⟨stars, s1, hstars, bhs, s2, hbhs, nbs, s3, hnbs,
      asts, s4, hasts, cms, s5, hcms, rfl, rfl⟩ := hx
    obtain ⟨hsmap, hsget⟩ := generate_stars_shape hstars
    exact ⟨rfl, hsmap, generate_black_holes_codes hbhs, generate_nebulae_codes hnbs,
      generate_asteroids_codes hasts, generate_comets_codes hcms, hsget⟩
  have hlen := genSeq_length h
  rw [List.length_range] at hlen
  have hfa := genSeq_forall₂ (P := fun x a => GalaxyShape x a) hbody h
  constructor
  · have hmap : gals.map Galaxy.code
        = (List.range cfg.NUM_GALAXIES.toNat).map galaxyCode :=
      forall₂_map_eq (hfa.imp (fun a b hab => hab.1))
    rw [hmap, hlen]
  · exact forall₂_range_get hfa

/-! Arithmetic helpers for the mineral claims. -/

theorem sum_map_div (l : List ℚ) (c : ℚ) :
    (l.map (fun w => w / c)).sum = l.sum / c := by
  induction l with
  | nil => simp
  | cons x xs ih => simp [ih, add_div]

theorem zip_snd_eq {l₁ : List α} {l₂ : List β} (h : l₁.length = l₂.length) :
    (l₁.zip l₂).map Prod.snd = l₂ := by
  induction l₁ generalizing l₂ with
  | nil =>
      cases l₂ with
      | nil => rfl
      | cons y ys => simp at h
  | cons x xs ih =>
      cases l₂ with
      | nil => simp at h
      | cons y ys =>
          simp only [List.length_cons, Nat.add_right_cancel_iff] at h
          simp [List.zip_cons_cons, ih h]

/-- Claim C3: every composition mapping produced by `random_minerals` has
only non-negative values (given that the float oracle yields the outputs of
`random.random()`, which are non-negative) and its values sum to exactly `1`;
in the rational model the sum is exact, hence within any tolerance. -/
theorem claim_C3_minerals_normalised (s : RState) (m : List (String × ℚ))
    (s' : RState) (hf : ∀ k, 0 ≤ s.f k)
    (h : random_minerals s = .ok (m, s')) :
    (∀ q ∈ m, 0 ≤ q.2) ∧ (m.map Prod.snd).sum = 1 := by
  rw [random_minerals_eval] at h
  by_cases h0 : ((List.range 8).map (fun k => s.f (s.i + k))).sum = 0
  · rw [if_pos h0] at h; cases h
  · rw [if_neg h0] at h
    injection h with h'
    have hm : m = (MINERAL_TYPES.zip ((List.range 8).map (fun k => s.f (s.i + k)))).map
        (fun p => (p.1, p.2 / ((List.range 8).map (fun k => s.f (s.i + k))).sum)) :=
      (congrArg Prod.fst h').symm
    have hws_nonneg : ∀ w ∈ (List.range 8).map (fun k => s.f (s.i + k)), 0 ≤ w := by
      intro w hw
      simp only [List.mem_map] at hw
      obtain ⟨k, -, rfl⟩ := hw
      exact hf _
    have hsum_nonneg : 0 ≤ ((List.range 8).map (fun k => s.f (s.i + k))).sum :=
      List.sum_nonneg hws_nonneg
    constructor
    · intro q hq
      rw [hm] at hq
      simp only [List.mem_map] at hq
      obtain ⟨p, hp, rfl⟩ := hq
      have hp2 : p.2 ∈ (List.range 8).map (fun k => s.f (s.i + k)) := by
        have := List.of_mem_zip (by exact hp)
        exact this.2
      exact div_nonneg (hws_nonneg _ hp2) hsum_nonneg
    · rw [hm, List.map_map]
      have hc : (Prod.snd ∘ fun p : String × ℚ =>
          (p.1, p.2 / ((List.range 8).map (fun k => s.f (s.i + k))).sum))
          = (fun p : String × ℚ =>
              p.2 / ((List.range 8).map (fun k => s.f (s.i + k))).sum) := rfl
      rw [hc]
      have hzip : (MINERAL_TYPES.zip ((List.range 8).map (fun k => s.f (s.i + k)))).map
          (fun p : String × ℚ =>
            p.2 / ((List.range 8).map (fun k => s.f (s.i + k))).sum)
          = ((MINERAL_TYPES.zip ((List.range 8).map (fun k => s.f (s.i + k)))).map
              Prod.snd).map
              (fun w => w / ((List.range 8).map (fun k => s.f (s.i + k))).sum) := by
        rw [List.map_map]; rfl
      rw [hzip, zip_snd_eq (by simp [MINERAL_TYPES]), sum_map_div, div_self h0]

/-- Evaluation of `random_minerals` on the all-halves oracle. -/
theorem random_minerals_st0 :
    random_minerals st0 = .ok (minerals0, ⟨fun _ => 1/2, fun _ => 0, 8, 0⟩) := by
  rw [random_minerals_eval]
  norm_num [st0, minerals0, MINERAL_TYPES]
  norm_num [List.replicate_succ]

/-- Witness for C3 at the all-halves oracle: the produced mapping gives each
mineral `1/8`. -/
theorem claim_C3_witness :
    (∀ q ∈ minerals0, 0 ≤ q.2) ∧ (minerals0.map Prod.snd).sum = 1 :=
  claim_C3_minerals_normalised st0 minerals0 ⟨fun _ => 1/2, fun _ => 0, 8, 0⟩
    (fun k => by show (0:ℚ) ≤ 1/2; norm_num) random_minerals_st0

/-- Claim C8: `random_minerals` divides by the sum of the eight draws with no
guard: if all eight draws are `0` it raises `ZeroDivisionError`, and whenever
at least one draw is positive (draws being outputs of `random.random()`, hence
non-negative) it returns normally. -/
theorem claim_C8_zero_sum_division (s : RState) :
    ((∀ k < 8, s.f (s.i + k) = 0) →
        random_minerals s = .error .zeroDivisionError) ∧
    ((∀ k, 0 ≤ s.f k) → (∃ k, k < 8 ∧ 0 < s.f (s.i + k)) →
        ∃ m s', random_minerals s = .ok (m, s')) := by
  constructor
  · exact random_minerals_zero
  · rintro hf ⟨k, hk, hpos⟩
    have hmem : s.f (s.i + k) ∈ (List.range 8).map (fun k => s.f (s.i + k)) := by
      simp only [List.mem_map, List.mem_range]
      exact ⟨k, hk, rfl⟩
    have hnonneg : ∀ w ∈ (List.range 8).map (fun k => s.f (s.i + k)), 0 ≤ w := by
      intro w hw
      simp only [List.mem_map] at hw
      obtain ⟨k', -, rfl⟩ := hw
      exact hf _
    have hlt : 0 < ((List.range 8).map (fun k => s.f (s.i + k))).sum :=
      lt_of_lt_of_le hpos (List.single_le_sum hnonneg _ hmem)
    refine ⟨(MINERAL_TYPES.zip ((List.range 8).map (fun k => s.f (s.i + k)))).map
      (fun p => (p.1, p.2 / ((List.range 8).map (fun k => s.f (s.i + k))).sum)),
      { s with i := s.i + 8 }, ?_⟩
    rw [random_minerals_eval, if_neg (ne_of_gt hlt)]

/-- Witness for C8: the all-zeros oracle raises, the all-halves oracle
returns normally. -/
theorem claim_C8_witness :
    random_minerals stZero = .error .zeroDivisionError ∧
    ∃ m s', random_minerals st0 = .ok (m, s') :=
  ⟨(claim_C8_zero_sum_division stZero).1 (fun _ _ => rfl),
   (claim_C8_zero_sum_division st0).2 (fun k => by show (0:ℚ) ≤ 1/2; norm_num)
     ⟨0, by norm_num, by show (0:ℚ) < 1/2; norm_num⟩⟩

/-- Uniqueness of all member codes inside one generated galaxy. -/
theorem galaxyMemberCodes_nodup {g : ℕ} {gal : Galaxy} (h : GalaxyShape g gal) :
    (galaxyMemberCodes gal).Nodup := by
  unfold GalaxyShape at h
  obtain ⟨-, hs, hb, hn, ha, hc, -⟩ := h
  unfold galaxyMemberCodes
  rw [hs, hb, hn, ha, hc]
  simp only [List.nodup_append, List.disjoint_append_left]
  repeat' apply And.intro
  all_goals first
    | exact nodup_range_map (starCode_injective g) _
    | exact nodup_range_map (bhCode_injective g) _
    | exact nodup_range_map (nebulaCode_injective g) _
    | exact nodup_range_map (asteroidCode_injective g) _
    | exact nodup_range_map (cometCode_injective g) _
    | exact disjoint_range_map (star_ne_bh g) _ _
    | exact disjoint_range_map (star_ne_nebula g) _ _
    | exact disjoint_range_map (star_ne_asteroid g) _ _
    | exact disjoint_range_map (star_ne_comet g) _ _
    | exact disjoint_range_map (bh_ne_nebula g) _ _
    | exact disjoint_range_map (bh_ne_asteroid g) _ _
    | exact disjoint_range_map (bh_ne_comet g) _ _
    | exact disjoint_range_map (nebula_ne_asteroid g) _ _
    | exact disjoint_range_map (nebula_ne_comet g) _ _
    | exact disjoint_range_map (asteroid_ne_comet g) _ _

/-- Claim C4: in every generated universe, galaxy codes are unique within the
universe, all star/black-hole/nebula/asteroid/comet codes are unique within
their galaxy, planet codes are unique within their star, and every code is
the deterministic positional function of the entity's indices (the map
equalities against `List.range`), with no randomness involved. -/
theorem claim_C4_codes_unique (cfg : Config) (s : RState) (u : Universe)
    (s' : RState) (h : genUniverse cfg s = .ok (u, s')) :
    (u.galaxies.map Galaxy.code = (List.range u.galaxies.length).map galaxyCode) ∧
    (u.galaxies.map Galaxy.code).Nodup ∧
    ∀ gi (hg : gi < u.galaxies.length),
      GalaxyShape gi (u.galaxies.get ⟨gi, hg⟩) ∧
      (galaxyMemberCodes (u.galaxies.get ⟨gi, hg⟩)).Nodup ∧
      ∀ sidx (hs : sidx < (u.galaxies.get ⟨gi, hg⟩).stars.length),
        (((u.galaxies.get ⟨gi, hg⟩).stars.get ⟨sidx, hs⟩).planets.map
          Planet.code).Nodup := by
  simp only [genUniverse, bind_eq, Gen.bind_ok, Gen.pure_ok] at h
  obtain ⟨gals, s₁, hgals, rfl, rfl⟩ := h
  obtain ⟨hmap, hshape⟩ := generate_galaxies_shape hgals
  simp only [show (Universe.mk gals).galaxies = gals from rfl]
  refine ⟨hmap, ?_, ?_⟩
  · rw [hmap]; exact nodup_range_map galaxyCode_injective _
  · intro gi hg
    have hsh := hshape gi hg
    refine ⟨hsh, galaxyMemberCodes_nodup hsh, ?_⟩
    intro sidx hs
    have hstar := hsh.2.2.2.2.2.2 sidx hs
    rw [hstar.2]
    exact nodup_range_map (planetCode_injective gi sidx) _

/-- Evaluation of the generator on the boundary configuration and the
all-halves oracle. -/
theorem genUniverse_cfg00 :
    genUniverse cfg00 st0 = .ok (u00, ⟨fun _ => 1/2, fun _ => 0, 0, 5⟩) := rfl

/-- Witness for C4 at the boundary configuration. -/
theorem claim_C4_witness : (u00.galaxies.map Galaxy.code).Nodup :=
  (claim_C4_codes_unique cfg00 st0 u00 ⟨fun _ => 1/2, fun _ => 0, 0, 5⟩
    genUniverse_cfg00).2.1

/-- Claim C5: the embedded generator is a pure function of the configuration
and the oracle state (the seeded PRNG), so two runs from the same seed state
produce structurally identical results. -/
theorem claim_C5_deterministic (cfg : Config) (s₁ s₂ : RState) (h : s₁ = s₂) :
    genUniverse cfg s₁ = genUniverse cfg s₂ := by rw [h]

/-- Witness for C5 at the boundary configuration. -/
theorem claim_C5_witness : genUniverse cfg00 st0 = genUniverse cfg00 st0 :=
  claim_C5_deterministic cfg00 st0 st0 rfl

/-! Error behaviour of the generator on bad configurations (claim C6). -/

/-- Counterexample to C6 as stated: a configuration with a negative count
range is not rejected; generation runs to completion and returns a universe
with empty collections. -/
theorem claim_C6_counterexample :
    cfgNeg.STAR_COUNT_RANGE.1 < 0 ∧
    genUniverse cfgNeg st0 = .ok (u00, ⟨fun _ => 1/2, fun _ => 0, 0, 5⟩) :=
  ⟨by norm_num [cfgNeg], rfl⟩

/-- Amended C6: a malformed count range (min > max) raises `ValueError` at
its first draw — during generation, not before it — and no universe is
produced; a configuration with a negative count range is not rejected at all:
the drawn count is negative and the collection comes out empty. -/
theorem claim_C6_amended :
    (∀ cfg s, 1 ≤ cfg.NUM_GALAXIES.toNat →
      cfg.STAR_COUNT_RANGE.2 < cfg.STAR_COUNT_RANGE.1 →
      genUniverse cfg s = .error .valueError) ∧
    (∀ cfg g s, cfg.STAR_COUNT_RANGE.1 ≤ cfg.STAR_COUNT_RANGE.2 →
      cfg.STAR_COUNT_RANGE.2 < 0 →
      ∃ s', generate_stars cfg g s = .ok ([], s')) := by
  constructor
  · intro cfg s hg hbad
    obtain ⟨n, hn⟩ : ∃ n, cfg.NUM_GALAXIES.toNat = n + 1 :=
      ⟨cfg.NUM_GALAXIES.toNat - 1, by omega⟩
    simp only [genUniverse, bind_eq]
    apply Gen.bind_error_left
    simp only [generate_galaxies, hn, List.range_succ_eq_map, genSeq, bind_eq]
    apply Gen.bind_error_left
    apply Gen.bind_error_left
    simp only [generate_stars, bind_eq]
    apply Gen.bind_error_left
    exact randint_error (not_le.mpr hbad) s
  · intro cfg g s hle hneg
    have hmlt : (s.g s.j : ℤ) % (cfg.STAR_COUNT_RANGE.2 - cfg.STAR_COUNT_RANGE.1 + 1)
        < cfg.STAR_COUNT_RANGE.2 - cfg.STAR_COUNT_RANGE.1 + 1 :=
      Int.emod_lt_of_pos _ (by omega)
    have hmnn : 0 ≤ (s.g s.j : ℤ) % (cfg.STAR_COUNT_RANGE.2 - cfg.STAR_COUNT_RANGE.1 + 1) :=
      Int.emod_nonneg _ (by omega)
    have htn : (cfg.STAR_COUNT_RANGE.1 +
        (s.g s.j : ℤ) % (cfg.STAR_COUNT_RANGE.2 - cfg.STAR_COUNT_RANGE.1 + 1)).toNat = 0 := by
      rw [Int.toNat_eq_zero]
      omega
    refine ⟨{ s with j := s.j + 1 }, ?_⟩
    simp only [generate_stars, bind_eq]
    rw [Gen.bind_ok]
    refine ⟨_, _, randint_ok hle s, ?_⟩
    rw [htn]
    simp [genSeq, Gen.pure]

/-- Witness for the amended C6: the malformed range errors, the negative
range yields an empty star list. -/
theorem claim_C6_witness :
    genUniverse cfgBad st0 = .error .valueError ∧
    ∃ s', generate_stars cfgNeg 0 st0 = .ok ([], s') :=
  ⟨claim_C6_amended.1 cfgBad st0 (by decide) (by decide),
   claim_C6_amended.2 cfgNeg 0 st0 (by decide) (by decide)⟩

/-! Totality of the generator (claim C7). -/

theorem stepOk_pyRandom : StepOk PosF pyRandom :=
  fun s hs => ⟨s.f s.i, { s with i := s.i + 1 }, rfl, hs⟩

theorem stepOk_uniform (a b : ℚ) : StepOk PosF (uniform a b) :=
  fun s hs => ⟨_, _, uniform_eval a b s, hs⟩

theorem stepOk_random_mass : StepOk PosF random_mass := stepOk_uniform _ _

theorem stepOk_random_temperature : StepOk PosF random_temperature :=
  stepOk_uniform _ _

theorem stepOk_random_bool (p : ℚ) : StepOk PosF (random_bool_chance p) :=
  fun s hs => ⟨_, _, random_bool_chance_eval p s, hs⟩

theorem stepOk_randint {a b : ℤ} (hab : a ≤ b) : StepOk PosF (randint a b) :=
  fun s hs => ⟨_, _, randint_ok hab s, hs⟩

theorem stepOk_choice {l : List α} (hl : l.length ≠ 0) : StepOk PosF (choice l) := by
  intro s hs
  obtain ⟨x, hx⟩ := choice_ok hl s
  exact ⟨x, _, hx, hs⟩

theorem stepOk_random_minerals : StepOk PosF random_minerals := by
  intro s hs
  have hmem : s.f (s.i + 0) ∈ (List.range 8).map (fun k => s.f (s.i + k)) := by
    simp only [List.mem_map, List.mem_range]
    exact ⟨0, by norm_num, rfl⟩
  have hnonneg : ∀ w ∈ (List.range 8).map (fun k => s.f (s.i + k)), 0 ≤ w := by
    intro w hw
    simp only [List.mem_map] at hw
    obtain ⟨k', -, rfl⟩ := hw
    exact le_of_lt (hs _)
  have hlt : 0 < ((List.range 8).map (fun k => s.f (s.i + k))).sum :=
    lt_of_lt_of_le (hs (s.i + 0)) (List.single_le_sum hnonneg _ hmem)
  refine ⟨(MINERAL_TYPES.zip ((List.range 8).map (fun k => s.f (s.i + k)))).map
    (fun p => (p.1, p.2 / ((List.range 8).map (fun k => s.f (s.i + k))).sum)),
    { s with i := s.i + 8 }, ?_, hs⟩
  rw [random_minerals_eval, if_neg (ne_of_gt hlt)]

theorem stepOk_generate_planets {cfg : Config}
    (hp : cfg.PLANET_COUNT_RANGE.1 ≤ cfg.PLANET_COUNT_RANGE.2) (g sidx : ℕ) :
    StepOk PosF (generate_planets cfg g sidx) := by
  simp only [generate_planets, bind_eq]
  refine StepOk.bind (stepOk_randint hp) (fun num => ?_)
  refine stepOk_genSeq (fun pidx => ?_) _
  exact StepOk.bind stepOk_random_mass (fun m =>
    StepOk.bind stepOk_random_temperature (fun t =>
      StepOk.bind (stepOk_random_bool _) (fun b =>
        StepOk.bind stepOk_random_minerals (fun mi => StepOk.pure _))))

theorem stepOk_generate_stars {cfg : Config}
    (hs : cfg.STAR_COUNT_RANGE.1 ≤ cfg.STAR_COUNT_RANGE.2)
    (hp : cfg.PLANET_COUNT_RANGE.1 ≤ cfg.PLANET_COUNT_RANGE.2) (g : ℕ) :
    StepOk PosF (generate_stars cfg g) := by
  simp only [generate_stars, bind_eq]
  refine StepOk.bind (stepOk_randint hs) (fun num => ?_)
  refine stepOk_genSeq (fun sidx => ?_) _
  exact StepOk.bind stepOk_random_mass (fun m =>
    StepOk.bind stepOk_random_temperature (fun t =>
      StepOk.bind (stepOk_choice (by decide)) (fun sp =>
        StepOk.bind (stepOk_generate_planets hp g sidx) (fun pl => StepOk.pure _))))

theorem stepOk_generate_black_holes {cfg : Config}
    (hb : cfg.BH_COUNT_RANGE.1 ≤ cfg.BH_COUNT_RANGE.2) (g : ℕ) :
    StepOk PosF (generate_black_holes cfg g) := by
  simp only [generate_black_holes, bind_eq]
  refine StepOk.bind (stepOk_randint hb) (fun num => ?_)
  refine stepOk_genSeq (fun bidx => ?_) _
  exact StepOk.bind stepOk_random_mass (fun m =>
    StepOk.bind stepOk_pyRandom (fun sp => StepOk.pure _))

theorem stepOk_generate_nebulae {cfg : Config}
    (hn : cfg.NEBULA_COUNT_RANGE.1 ≤ cfg.NEBULA_COUNT_RANGE.2) (g : ℕ) :
    StepOk PosF (generate_nebulae cfg g) := by
  simp only [generate_nebulae, bind_eq]
  refine StepOk.bind (stepOk_randint hn) (fun num => ?_)
  refine stepOk_genSeq (fun nidx => ?_) _
  exact StepOk.bind stepOk_random_mass (fun m =>
    StepOk.bind stepOk_random_temperature (fun t =>
      StepOk.bind stepOk_random_minerals (fun c => StepOk.pure _)))

theorem stepOk_generate_asteroids {cfg : Config}
    (ha : cfg.ASTEROID_COUNT_RANGE.1 ≤ cfg.ASTEROID_COUNT_RANGE.2) (g : ℕ) :
    StepOk PosF (generate_asteroids cfg g) := by
  simp only [generate_asteroids, bind_eq]
  refine StepOk.bind (stepOk_randint ha) (fun num => ?_)
  refine stepOk_genSeq (fun aidx => ?_) _
  exact StepOk.bind stepOk_random_mass (fun m =>
    StepOk.bind stepOk_random_minerals (fun c => StepOk.pure _))

theorem stepOk_generate_comets {cfg : Config}
    (hc : cfg.COMET_COUNT_RANGE.1 ≤ cfg.COMET_COUNT_RANGE.2) (g : ℕ) :
    StepOk PosF (generate_comets cfg g) := by
  simp only [generate_comets, bind_eq]
  refine StepOk.bind (stepOk_randint hc) (fun num => ?_)
  refine stepOk_genSeq (fun cidx => ?_) _
  exact StepOk.bind stepOk_random_mass (fun m =>
    StepOk.bind (stepOk_uniform _ _) (fun t => StepOk.pure _))

theorem genUniverse_total (cfg : Config) (hw : WfCfg cfg) :
    StepOk PosF (genUniverse cfg) := by
  obtain ⟨-, hs, hp, hb, hn, ha, hc⟩ := hw
  simp only [genUniverse, bind_eq]
  refine StepOk.bind ?_ (fun gals => StepOk.pure _)
  simp only [generate_galaxies]
  refine stepOk_genSeq (fun g => ?_) _
  exact StepOk.bind (stepOk_generate_stars hs.2 hp.2 g) (fun stars =>
    StepOk.bind (stepOk_generate_black_holes hb.2 g) (fun bhs =>
      StepOk.bind (stepOk_generate_nebulae hn.2 g) (fun nbs =>
        StepOk.bind (stepOk_generate_asteroids ha.2 g) (fun asts =>
          StepOk.bind (stepOk_generate_comets hc.2 g) (fun cms => StepOk.pure _)))))

theorem randint00 (s : RState) :
    randint 0 0 s = .ok (0, { s with j := s.j + 1 }) := by
  rw [randint_ok le_rfl]
  norm_num

theorem generate_stars_cfg00 (g : ℕ) (s : RState) :
    generate_stars cfg00 g s = .ok ([], { s with j := s.j + 1 }) := by
  simp only [generate_stars, bind_eq]
  rw [Gen.bind_ok]
  refine ⟨0, { s with j := s.j + 1 }, randint00 s, ?_⟩
  norm_num [genSeq, Gen.pure]

theorem generate_black_holes_cfg00 (g : ℕ) (s : RState) :
    generate_black_holes cfg00 g s = .ok ([], { s with j := s.j + 1 }) := by
  simp only [generate_black_holes, bind_eq]
  rw [Gen.bind_ok]
  refine ⟨0, { s with j := s.j + 1 }, randint00 s, ?_⟩
  norm_num [genSeq, Gen.pure]

theorem generate_nebulae_cfg00 (g : ℕ) (s : RState) :
    generate_nebulae cfg00 g s = .ok ([], { s with j := s.j + 1 }) := by
  simp only [generate_nebulae, bind_eq]
  rw [Gen.bind_ok]
  refine ⟨0, { s with j := s.j + 1 }, randint00 s, ?_⟩
  norm_num [genSeq, Gen.pure]

theorem generate_asteroids_cfg00 (g : ℕ) (s : RState) :
    generate_asteroids cfg00 g s = .ok ([], { s with j := s.j + 1 }) := by
  simp only [generate_asteroids, bind_eq]
  rw [Gen.bind_ok]
  refine ⟨0, { s with j := s.j + 1 }, randint00 s, ?_⟩
  norm_num [genSeq, Gen.pure]

theorem generate_comets_cfg00 (g : ℕ) (s : RState) :
    generate_comets cfg00 g s = .ok ([], { s with j := s.j + 1 }) := by
  simp only [generate_comets, bind_eq]
  rw [Gen.bind_ok]
  refine ⟨0, { s with j := s.j + 1 }, randint00 s, ?_⟩
  norm_num [genSeq, Gen.pure]

/-- Evaluation of the generator on the boundary configuration, for an
arbitrary oracle: exactly one galaxy `G0`, all five collections empty, five
integer draws consumed. -/
theorem genUniverse_cfg00_eval (s : RState) :
    genUniverse cfg00 s = .ok (u00, { s with j := s.j + 5 }) := by
  simp only [genUniverse, generate_galaxies, bind_eq]
  rw [show cfg00.NUM_GALAXIES.toNat = 1 from rfl, show List.range 1 = [0] from rfl]
  simp only [genSeq, bind_eq]
  rw [Gen.bind_ok]
  refine ⟨[Galaxy.mk "G0" [] [] [] [] []], { s with j := s.j + 5 }, ?_, rfl⟩
  rw [Gen.bind_ok]
  refine ⟨Galaxy.mk "G0" [] [] [] [] [], { s with j := s.j + 5 }, ?_, rfl⟩
  rw [Gen.bind_ok]
  refine ⟨[], { s with j := s.j + 1 }, generate_stars_cfg00 0 s, ?_⟩
  rw [Gen.bind_ok]
  refine ⟨[], { s with j := s.j + 2 }, generate_black_holes_cfg00 0 _, ?_⟩
  rw [Gen.bind_ok]
  refine ⟨[], { s with j := s.j + 3 }, generate_nebulae_cfg00 0 _, ?_⟩
  rw [Gen.bind_ok]
  refine ⟨[], { s with j := s.j + 4 }, generate_asteroids_cfg00 0 _, ?_⟩
  rw [Gen.bind_ok]
  refine ⟨[], { s with j := s.j + 5 }, generate_comets_cfg00 0 _, rfl⟩

/-- Counterexample to C7 as stated: `cfgPlanet` has non-negative well-formed
ranges and `galaxy_count = 1`, yet on the all-zeros oracle the first planet's
mineral normalisation divides by zero and generation raises instead of
terminating successfully. -/
theorem claim_C7_counterexample :
    WfCfg cfgPlanet ∧ genUniverse cfgPlanet stZero = .error .zeroDivisionError := by
  refine ⟨by unfold WfCfg; decide, ?_⟩
  have hr1 : randint 1 1 (stZ 0 0) = .ok (1, stZ 0 1) := by
    rw [randint_ok (by norm_num)]
    norm_num [stZ]
  have hr2 : randint 1 1 (stZ 2 2) = .ok (1, stZ 2 3) := by
    rw [randint_ok (by norm_num)]
    norm_num [stZ]
  show genUniverse cfgPlanet (stZ 0 0) = .error .zeroDivisionError
  simp only [genUniverse, bind_eq]
  apply Gen.bind_error_left
  simp only [generate_galaxies, bind_eq]
  rw [show cfgPlanet.NUM_GALAXIES.toNat = 1 from rfl,
    show List.range 1 = [0] from rfl]
  simp only [genSeq, bind_eq]
  apply Gen.bind_error_left
  apply Gen.bind_error_left
  show generate_stars cfgPlanet 0 (stZ 0 0) = .error .zeroDivisionError
  simp only [generate_stars, bind_eq]
  apply Gen.bind_error_right hr1
  simp only [show ((1:ℤ).toNat) = 1 from rfl, show List.range 1 = [0] from rfl,
    genSeq, bind_eq]
  apply Gen.bind_error_left
  apply Gen.bind_error_right (random_mass_eval _)
  apply Gen.bind_error_right (random_temperature_eval _)
  obtain ⟨sp, hsp⟩ := choice_ok (l := spectral_types) (by decide) _
  apply Gen.bind_error_right hsp
  apply Gen.bind_error_left
  show generate_planets cfgPlanet 0 0 (stZ 2 2) = .error .zeroDivisionError
  simp only [generate_planets, bind_eq]
  apply Gen.bind_error_right hr2
  simp only [show ((1:ℤ).toNat) = 1 from rfl, show List.range 1 = [0] from rfl,
    genSeq, bind_eq]
  apply Gen.bind_error_left
  apply Gen.bind_error_right (random_mass_eval _)
  apply Gen.bind_error_right (random_temperature_eval _)
  apply Gen.bind_error_right (random_bool_chance_eval _ _)
  apply Gen.bind_error_left
  exact random_minerals_zero (fun k _ => rfl)

/-- Amended C7: generation is total over well-formed non-negative
configurations provided every float draw of the random source is positive
(so no mineral-weight octet sums to zero); and with all count ranges `(0,0)`
and `galaxy_count = 1` the result is exactly one galaxy with all five
collections empty. -/
theorem claim_C7_amended :
    (∀ cfg s, WfCfg cfg → PosF s → ∃ u s', genUniverse cfg s = .ok (u, s')) ∧
    (∀ s, genUniverse cfg00 s = .ok (u00, { s with j := s.j + 5 })) := by
  constructor
  · intro cfg s hw hp
    obtain ⟨u, s', hok, -⟩ := genUniverse_total cfg hw s hp
    exact ⟨u, s', hok⟩
  · exact genUniverse_cfg00_eval

/-- Witness for the amended C7 at the boundary configuration and the
all-halves oracle. -/
theorem claim_C7_witness :
    (∃ u s', genUniverse cfg00 st0 = .ok (u, s')) ∧
    genUniverse cfg00 st0 = .ok (u00, { st0 with j := st0.j + 5 }) :=
  ⟨claim_C7_amended.1 cfg00 st0 (by unfold WfCfg; decide)
      (fun k => by show (0:ℚ) < 1/2; norm_num),
   claim_C7_amended.2 st0⟩

/-! The writer: length prefix, payload, sparse padding (claims C1, C9, C10). -/

theorem pack_u64_length (n : ℕ) : (pack_u64 n).length = 8 := by
  simp [pack_u64]

/-- Writing the universe into a fresh file leaves the 8-byte little-endian
length followed by the payload, cursor at the end. -/
theorem write_universe_openWb (payload : List ℕ) :
    write_universe payload openWb
      = ⟨pack_u64 payload.length ++ payload, 8 + payload.length⟩ := by
  simp only [write_universe, openWb, PyFile.write]
  norm_num [pack_u64_length]
  rw [List.take_of_length_le (by simp [pack_u64_length]),
    List.drop_eq_nil_of_le (by simp [pack_u64_length])]
  simp

/-- Evaluation of `pad_file` when the target exceeds the current length:
the gap is zero-filled and a final zero byte is written. -/
theorem pad_file_eval_ge {t : ℕ} {fl : PyFile} (h : fl.data.length < t) :
    pad_file t fl
      = ⟨fl.data ++ List.replicate (t - 1 - fl.data.length) 0 ++ [0], t⟩ := by
  simp only [pad_file, PyFile.seek, PyFile.write]
  by_cases hc : fl.data.length < t - 1
  · rw [if_pos hc]
    have h1 : (fl.data ++ List.replicate (t - 1 - fl.data.length) 0).length = t - 1 := by
      simp [List.length_append, List.length_replicate]
      omega
    rw [List.take_of_length_le (le_of_eq h1),
      List.drop_eq_nil_of_le (by rw [h1]; omega)]
    simp only [List.length_cons, List.length_nil, List.append_assoc, List.append_nil]
    rw [show t - 1 + (0 + 1) = t from by omega]
  · rw [if_neg hc]
    have hl : fl.data.length = t - 1 := by omega
    have hrep : t - 1 - fl.data.length = 0 := by omega
    rw [List.take_of_length_le (le_of_eq hl),
      List.drop_eq_nil_of_le (by omega), hrep]
    simp only [List.replicate_zero, List.length_cons, List.length_nil,
      List.append_nil, List.nil_append]
    rw [show t - 1 + (0 + 1) = t from by omega]

/-- Evaluation of `pad_file` when the target does not exceed the current
length: the byte at `target - 1` is overwritten with zero in place. -/
theorem pad_file_eval_lt {t : ℕ} {fl : PyFile} (ht : 1 ≤ t)
    (h : t ≤ fl.data.length) :
    pad_file t fl = ⟨fl.data.set (t - 1) 0, t⟩ := by
  simp only [pad_file, PyFile.seek, PyFile.write]
  rw [if_neg (by omega)]
  rw [List.set_eq_take_cons_drop _ (by omega : t - 1 < fl.data.length)]
  have hd : t - 1 + 1 = t := by omega
  simp only [List.length_cons, List.length_nil, Nat.zero_add, hd,
    List.append_assoc, List.singleton_append]

/-- The padded file's size is the maximum of the previous size and the
target. -/
theorem pad_file_length {t : ℕ} (ht : 1 ≤ t) (fl : PyFile) :
    (pad_file t fl).data.length = max fl.data.length t := by
  rcases lt_or_le fl.data.length t with h | h
  · rw [pad_file_eval_ge h]
    simp only [List.length_append, List.length_replicate, List.length_cons,
      List.length_nil]
    rw [Nat.max_eq_right (le_of_lt h)]
    omega
  · rw [pad_file_eval_lt ht h]
    simp only [List.length_set]
    rw [Nat.max_eq_left h]

/-- Amended claim C1: for `target_size` strictly greater than
`8 + payload_length`, the written file starts with the 8-byte little-endian
length, followed by the payload, has size exactly `target_size`, and its
final byte is zero. (At `target_size = 8 + payload_length` the final write of
`pad_file` lands on the last payload byte and overwrites it with zero, so
strictness is necessary.) -/
theorem claim_C1_write_pad_layout (payload : List ℕ) (target_size : ℕ)
    (h : 8 + payload.length < target_size) :
    (pad_file target_size (write_universe payload openWb)).data.take 8
        = pack_u64 payload.length ∧
    ((pad_file target_size (write_universe payload openWb)).data.drop 8).take
        payload.length = payload ∧
    (pad_file target_size (write_universe payload openWb)).data.length
        = target_size ∧
    (pad_file target_size (write_universe payload openWb)).data.getLast?
        = some 0 := by
  rw [write_universe_openWb]
  have hlen : (pack_u64 payload.length ++ payload).length = 8 + payload.length := by
    simp [pack_u64_length]
  rw [pad_file_eval_ge (by rw [hlen]; omega)]
  rw [hlen]
  simp only [List.append_assoc]
  refine ⟨?_, ?_, ?_, ?_⟩
  · exact List.take_left' (pack_u64_length payload.length)
  · rw [List.drop_left' (pack_u64_length payload.length)]
    exact List.take_left' rfl
  · simp only [List.length_append, List.length_replicate, List.length_cons,
      List.length_nil, pack_u64_length]
    omega
  · rw [show pack_u64 payload.length ++ (payload ++
        (List.replicate (target_size - 1 - (8 + payload.length)) 0 ++ [0]))
        = (pack_u64 payload.length ++ (payload ++
            List.replicate (target_size - 1 - (8 + payload.length)) 0)) ++ [0] by
      simp [List.append_assoc]]
    exact List.getLast?_concat _

/-- Witness for the amended C1 at a one-byte payload and `target_size = 10`. -/
theorem claim_C1_witness :
    (pad_file 10 (write_universe [46] openWb)).data.take 8 = pack_u64 1 ∧
    ((pad_file 10 (write_universe [46] openWb)).data.drop 8).take 1 = [46] ∧
    (pad_file 10 (write_universe [46] openWb)).data.length = 10 ∧
    (pad_file 10 (write_universe [46] openWb)).data.getLast? = some 0 :=
  claim_C1_write_pad_layout [46] 10 (by norm_num)

/-- Counterexample to C1 as stated: with `target_size = 8 + payload_length`
(allowed by the claim's `≥`), the zero byte written by `pad_file` overwrites
the final payload byte, so the file no longer ends with the payload. The
payload byte `46` is pickle's trailing `'.'`. -/
theorem claim_C1_counterexample :
    8 + List.length [46] ≤ 9 ∧
    ((pad_file 9 (write_universe [46] openWb)).data.drop 8).take 1 ≠ [46] := by
  constructor
  · norm_num
  · decide

/-- Claim C9: for any `target_size ≥ 1` the final size is
`max (8 + payload_length) target_size`; when
`target_size ≤ 8 + payload_length`, `pad_file` raises no error and instead
overwrites the byte at offset `target_size - 1` with zero. -/
theorem claim_C9_pad_overwrites (payload : List ℕ) (target_size : ℕ)
    (ht : 1 ≤ target_size) :
    (pad_file target_size (write_universe payload openWb)).data.length
        = max (8 + payload.length) target_size ∧
    (target_size ≤ 8 + payload.length →
      (pad_file target_size (write_universe payload openWb)).data
        = (pack_u64 payload.length ++ payload).set (target_size - 1) 0) := by
  rw [write_universe_openWb]
  have hlen : (pack_u64 payload.length ++ payload).length = 8 + payload.length := by
    simp [pack_u64_length]
  constructor
  · rw [pad_file_length ht, hlen]
  · intro hle
    rw [pad_file_eval_lt ht
      (by show target_size ≤ (pack_u64 payload.length ++ payload).length;
          rw [hlen]; omega)]

/-- Witness for C9 at a one-byte payload and `target_size = 3`: size stays
`9` and the byte at offset `2` is zeroed. -/
theorem claim_C9_witness :
    (pad_file 3 (write_universe [46] openWb)).data.length = max (8 + 1) 3 ∧
    (3 ≤ 8 + 1 →
      (pad_file 3 (write_universe [46] openWb)).data
        = (pack_u64 1 ++ [46]).set 2 0) :=
  claim_C9_pad_overwrites [46] 3 (by norm_num)

/-- Claim C10: `__exit__` calls `pad_file` unconditionally, so whether the
body succeeded or raised, the on-disk file ends up with at least
`target_size` bytes; in the error case the final file is exactly the padding
of whatever the body left behind (never truncated at the failure point). -/
theorem claim_C10_exit_pads (target_size : ℕ) (ht : 1 ≤ target_size)
    (body : PyFile → Except (PyErr × PyFile) PyFile) :
    target_size ≤ (withWriter target_size body).2.data.length ∧
    (∀ e fl, body openWb = .error (e, fl) →
      (withWriter target_size body).2 = pad_file target_size fl) := by
  constructor
  · unfold withWriter
    cases hb : body openWb with
    | ok fl =>
        simp only
        rw [pad_file_length ht]
        exact le_max_right _ _
    | error p =>
        cases p with
        | mk e fl =>
            simp only
            rw [pad_file_length ht]
            exact le_max_right _ _
  · intro e fl hb
    unfold withWriter
    rw [hb]

/-- Witness for C10 with a body that raises immediately. -/
theorem claim_C10_witness :
    4 ≤ (withWriter 4 bodyW).2.data.length ∧
    (withWriter 4 bodyW).2 = pad_file 4 openWb :=
  ⟨(claim_C10_exit_pads 4 (by norm_num) bodyW).1,
   (claim_C10_exit_pads 4 (by norm_num) bodyW).2 .valueError openWb rfl⟩

/-! Round trip of the serialization codec (claim C2). -/

theorem decodeList_map {dec : Val → Option α} {enc : α → Val} :
    ∀ (l : List α), (∀ x ∈ l, dec (enc x) = some x) →
      decodeList dec (l.map enc) = some l := by
  intro l h
  induction l with
  | nil => rfl
  | cons x xs ih =>
      simp [decodeList, h x (List.mem_cons_self x xs),
        ih (fun y hy => h y (List.mem_cons_of_mem x hy))]

theorem decodeMinerals_go (ms : List (String × ℚ)) :
    decodeMinerals.go (ms.map (fun p => (p.1, Val.num p.2))) = some ms := by
  induction ms with
  | nil => rfl
  | cons p rest ih => simp [decodeMinerals.go, ih]

theorem decodeMinerals_mineralsVal (ms : List (String × ℚ)) :
    decodeMinerals (mineralsVal ms) = some ms := by
  rw [mineralsVal, decodeMinerals]
  exact decodeMinerals_go ms

theorem planet_from_to (p : Planet) : Planet.from_dict p.to_dict = some p := by
  cases p with
  | mk c m t hl ms =>
      simp [Planet.to_dict, Planet.from_dict, decodeMinerals_mineralsVal]

theorem star_from_to (st : Star) : Star.from_dict st.to_dict = some st := by
  cases st with
  | mk c m t sp ps =>
      simp [Star.to_dict, Star.from_dict,
        decodeList_map _ (fun x _ => planet_from_to x)]

theorem black_hole_from_to (bh : BlackHole) :
    BlackHole.from_dict bh.to_dict = some bh := by
  cases bh with
  | mk c m sp => simp [BlackHole.to_dict, BlackHole.from_dict]

theorem nebula_from_to (nb : Nebula) : Nebula.from_dict nb.to_dict = some nb := by
  cases nb with
  | mk c m t comp =>
      simp [Nebula.to_dict, Nebula.from_dict, decodeMinerals_mineralsVal]

theorem asteroid_from_to (a : Asteroid) :
    Asteroid.from_dict a.to_dict = some a := by
  cases a with
  | mk c m comp =>
      simp [Asteroid.to_dict, Asteroid.from_dict, decodeMinerals_mineralsVal]

theorem comet_from_to (c : Comet) : Comet.from_dict c.to_dict = some c := by
  cases c with
  | mk cd m tl => simp [Comet.to_dict, Comet.from_dict]

theorem galaxy_from_to (gx : Galaxy) :
    Galaxy.from_dict gx.to_dict = some gx := by
  cases gx with
  | mk c ss bs ns as cs =>
      simp [Galaxy.to_dict, Galaxy.from_dict,
        decodeList_map _ (fun x _ => star_from_to x),
        decodeList_map _ (fun x _ => black_hole_from_to x),
        decodeList_map _ (fun x _ => nebula_from_to x),
        decodeList_map _ (fun x _ => asteroid_from_to x),
        decodeList_map _ (fun x _ => comet_from_to x)]

/-- Claim C2: decoding the logical value written by the writer (the
`to_dict` image of the universe; the byte level is Python's `pickle`, a
library codec abstracted here) with the spec's inverse codec recovers a
`Universe` deep-equal to the one serialized: decode after encode is the
identity on the logical value. -/
theorem claim_C2_roundtrip (u : Universe) :
    Universe.from_dict u.to_dict = some u := by
  cases u with
  | mk gals =>
      simp [Universe.to_dict, Universe.from_dict,
        decodeList_map _ (fun x _ => galaxy_from_to x)]

end UniverseSim
